import Mathlib

/-!
# Verification of the Monty gateway streaming bridge (src/gateway/main.py)

A shallow embedding of the WebSocket ↔ Ollama streaming bridge:

* `stream_ollama` — the Inference Bridge (main.py lines 88–198): appends the
  user turn, renders the prompt, consumes the upstream line stream, relays
  `content` events and emits one terminal event.
* `handle_frame` / `runLoop` — one iteration, resp. the whole read loop, of
  the Connection Handler `_handle_chat` (main.py lines 244–283).

The effectful parts are made explicit:

* the upstream HTTP call is a value of `UpstreamResult` describing how the
  call went (status failure, connect failure, or a list of delivered lines
  optionally followed by a transport fault);
* the WebSocket is a reliable sink: the frames a run would send are collected
  in order into a list of `Frame`;
* `uuid.uuid4()` results are parameters (`freshTask`, `freshCid`);
* the global `conversations` dict is threaded as a value of `Conversations`.

Python `str.strip()` is modelled by `strip` below (both remove surrounding
whitespace). An uncaught Python exception inside `_handle_chat` is modelled
by the `HandlerOutcome.crash` constructor: only `WebSocketDisconnect` is
caught there, so any other exception ends the read loop.
-/

namespace Monty

/-- JSON values, as produced by `json.loads`. An object is modelled as an
association list with keyed lookup (a decoded Python dict has unique keys). -/
inductive Json where
  | str (s : String)
  | num (n : Int)
  | bool (b : Bool)
  | null
  | arr (xs : List Json)
  | obj (fields : List (String × Json))

mutual

/-- Structural (boolean) equality of JSON values. -/
def Json.beq : Json → Json → Bool
  | .str a, .str b => a == b
  | .num a, .num b => a == b
  | .bool a, .bool b => a == b
  | .null, .null => true
  | .arr as, .arr bs => Json.beqList as bs
  | .obj as, .obj bs => Json.beqFields as bs
  | _, _ => false

def Json.beqList : List Json → List Json → Bool
  | [], [] => true
  | a :: as, b :: bs => Json.beq a b && Json.beqList as bs
  | _, _ => false

def Json.beqFields : List (String × Json) → List (String × Json) → Bool
  | [], [] => true
  | (k1, v1) :: as, (k2, v2) :: bs =>
      k1 == k2 && Json.beq v1 v2 && Json.beqFields as bs
  | _, _ => false

end

mutual

theorem Json.beq_iff : (a b : Json) → (Json.beq a b = true ↔ a = b)
  | .str a, .str b => by simp [Json.beq]
  | .num a, .num b => by simp [Json.beq]
  | .bool a, .bool b => by simp [Json.beq]
  | .null, .null => by simp [Json.beq]
  | .arr as, .arr bs => by
      simp only [Json.beq, Json.beqList_iff as bs, Json.arr.injEq]
  | .obj as, .obj bs => by
      simp only [Json.beq, Json.beqFields_iff as bs, Json.obj.injEq]
  | .str _, .num _ | .str _, .bool _ | .str _, .null | .str _, .arr _
  | .str _, .obj _ | .num _, .str _ | .num _, .bool _ | .num _, .null
  | .num _, .arr _ | .num _, .obj _ | .bool _, .str _ | .bool _, .num _
  | .bool _, .null | .bool _, .arr _ | .bool _, .obj _ | .null, .str _
  | .null, .num _ | .null, .bool _ | .null, .arr _ | .null, .obj _
  | .arr _, .str _ | .arr _, .num _ | .arr _, .bool _ | .arr _, .null
  | .arr _, .obj _ | .obj _, .str _ | .obj _, .num _ | .obj _, .bool _
  | .obj _, .null | .obj _, .arr _ => by simp [Json.beq]

theorem Json.beqList_iff : (as bs : List Json) → (Json.beqList as bs = true ↔ as = bs)
  | [], [] => by simp [Json.beqList]
  | a :: as, b :: bs => by
      simp [Json.beqList, Json.beq_iff a b, Json.beqList_iff as bs]
  | [], _ :: _ => by simp [Json.beqList]
  | _ :: _, [] => by simp [Json.beqList]

theorem Json.beqFields_iff :
    (as bs : List (String × Json)) → (Json.beqFields as bs = true ↔ as = bs)
  | [], [] => by simp [Json.beqFields]
  | (k1, v1) :: as, (k2, v2) :: bs => by
      simp [Json.beqFields, Json.beq_iff v1 v2, Json.beqFields_iff as bs,
        and_assoc]
  | [], _ :: _ => by simp [Json.beqFields]
  | _ :: _, [] => by simp [Json.beqFields]

end

instance : DecidableEq Json := fun a b =>
  decidable_of_iff (Json.beq a b = true) (Json.beq_iff a b)

/-- Python truthiness of a JSON value: empty string, zero, false, None,
empty list and empty dict are falsy. -/
def Json.truthy : Json → Bool
  | .str s => !(s == "")
  | .num n => !(n == 0)
  | .bool b => b
  | .null => false
  | .arr xs => !xs.isEmpty
  | .obj fs => !fs.isEmpty

/-- Whether the value may be used as a Python dict key: lists and dicts are
unhashable and raise `TypeError` when used as one. -/
def Json.hashable : Json → Bool
  | .arr _ => false
  | .obj _ => false
  | _ => true

/-- Keyed lookup in a decoded JSON object, i.e. `data.get(k)`. -/
def jLookup (k : String) : List (String × Json) → Option Json
  | [] => none
  | (k1, v) :: rest => if k1 = k then some v else jLookup k rest

/-- Removal of a key from a decoded JSON object (used to state that a falsy
`conversation_id` is treated exactly as an absent one). -/
def eraseField (k : String) (fs : List (String × Json)) : List (String × Json) :=
  fs.filter (fun p => p.1 != k)

/-- One conversation turn: `{"role": ..., "content": ...}` (main.py
lines 103 and 160 construct exactly these dicts). -/
structure Turn where
  role : String
  content : String
deriving DecidableEq

/-- The global `conversations: dict[str, list[dict[str, str]]]` of main.py
line 81, keyed by the (JSON) conversation id; `none` means the key is absent. -/
def Conversations : Type := Json → Option (List Turn)

/-- The empty `conversations` dict. -/
def noConversations : Conversations := fun _ => none

/-- Lines 99–102: initialise the history to `[]` when the key is absent,
then retrieve it. -/
def getHistory (cs : Conversations) (cid : Json) : List Turn :=
  (cs cid).getD []

/-- Store a history under a key (the effect of mutating `conversations[cid]`). -/
def setHistory (cs : Conversations) (cid : Json) (h : List Turn) : Conversations :=
  fun k => if k = cid then some h else cs k

/-- Outbound WebSocket frames, one constructor per `event_type` (§6 wire
shapes; `content` frames additionally carry `is_complete: false`, `completed`
frames carry the fixed text "Task completed"). -/
inductive Frame where
  | content (task_id : String) (content : String) (conversation_id : Json)
  | completed (task_id : String) (conversation_id : Json)
  | error (task_id : String) (error_message : String) (conversation_id : Json)
deriving DecidableEq

def Frame.isContent : Frame → Bool
  | .content .. => true
  | _ => false

def Frame.isCompleted : Frame → Bool
  | .completed .. => true
  | _ => false

def Frame.isError : Frame → Bool
  | .error .. => true
  | _ => false

/-- The text fragment carried by a `content` frame, if any. -/
def frameText : Frame → Option String
  | .content _ s _ => some s
  | _ => none

/-- One decoded upstream chunk, as read by lines 142 and 156:
`response` is `chunk.get("response", "")` (an absent field is the empty
string) and `done` is the truthiness of `chunk.get("done")`. -/
structure Chunk where
  response : String
  done : Bool
deriving DecidableEq

/-- One line yielded by `response.aiter_lines()` as the loop at lines
133–157 classifies it: `blank` is an empty line (line 134, skipped),
`malformed` is a line `json.loads` rejects (lines 137–140, skipped), and
`chunk` is a decoded JSON chunk. -/
inductive Line where
  | blank
  | malformed
  | chunk (c : Chunk)
deriving DecidableEq

/-- State produced by the reading loop: `text` is `full_response`, `frames`
the `content` events sent, and `sawDone` whether the loop ended by the
`break` at line 157 (as opposed to the line stream running out). -/
structure ScanResult where
  text : String
  frames : List Frame
  sawDone : Bool
deriving DecidableEq

/-- The reading loop, main.py lines 133–157: skip blank lines, skip
undecodable lines, emit a `content` event for every chunk with a non-empty
`response` while appending it to `full_response`, and stop at the first
chunk whose `done` is truthy (whose fragment, if any, is still emitted and
accumulated first, since lines 142–153 run before the check at line 156). -/
def readLines (task_id : String) (cid : Json) : List Line → ScanResult
  | [] => { text := "", frames := [], sawDone := false }
  | .blank :: rest => readLines task_id cid rest
  | .malformed :: rest => readLines task_id cid rest
  | .chunk c :: rest =>
      let fs : List Frame :=
        if c.response = "" then [] else [.content task_id c.response cid]
      if c.done then { text := c.response, frames := fs, sawDone := true }
      else
        let r := readLines task_id cid rest
        { text := c.response ++ r.text, frames := fs ++ r.frames,
          sawDone := r.sawDone }

/-- The chunks the reading loop actually processes: every decoded chunk up
to and including the first one with `done` set. -/
def takenChunks : List Line → List Chunk
  | [] => []
  | .blank :: rest => takenChunks rest
  | .malformed :: rest => takenChunks rest
  | .chunk c :: rest => if c.done then [c] else c :: takenChunks rest

/-- Concatenation of a list of strings. -/
def concatAll (l : List String) : String := l.foldr (· ++ ·) ""

/-- How the upstream HTTP streaming call went, covering the three `except`
arms of main.py lines 172–198:

* `httpStatusError code` — `response.raise_for_status()` (line 131) raised
  `httpx.HTTPStatusError` for a non-2xx status `code`;
* `connectFailure` — the connection attempt raised `httpx.ConnectError`;
* `ok lines fault` — the request succeeded and `aiter_lines()` yielded
  `lines`; afterwards the iterator either ended normally (`fault = none`)
  or raised some other exception with message `fault = some msg` (the
  generic `except Exception` arm). When the loop breaks at a `done` chunk
  the iterator is never pulled again, so a pending fault is not raised. -/
inductive UpstreamResult where
  | httpStatusError (code : Nat)
  | connectFailure
  | ok (lines : List Line) (fault : Option String)

/-- Default of `OLLAMA_HOST` (main.py line 25; the environment override is
not modelled — the value is only echoed inside one error message). -/
def OLLAMA_HOST : String := "http://localhost:11434"

/-- Prompt rendering, main.py lines 105–113: one `"<RoleLabel>: <content>"`
line per turn with label `"User"` for role `"user"` and `"Assistant"`
otherwise, then a trailing `"Assistant:"` line, joined with newlines. -/
def buildPrompt (history : List Turn) : String :=
  let prompt_parts := history.map (fun turn =>
    (if turn.role = "user" then "User" else "Assistant") ++ ": " ++ turn.content)
  String.intercalate "\n" (prompt_parts ++ ["Assistant:"])

/-- What one invocation of the bridge produces: the final state of the
`conversations` dict, the outbound frames sent over the WebSocket in order,
and the prompt string that was placed in the upstream request payload. -/
structure BridgeResult where
  conversations : Conversations
  frames : List Frame
  prompt : String

/-- The Inference Bridge `stream_ollama`, main.py lines 88–198.

Lines 99–103 run before the `try`: get-or-create the history and append the
user turn. Lines 105–120 render the prompt. Then, by `UpstreamResult` case:
a status or connect failure sends one `error` frame (lines 172–189); an
`ok` stream is consumed by `readLines`, after which either the pending
transport fault (reached only when the loop did not break on `done`) sends
one `error` frame (lines 190–198), or lines 159–170 append the accumulated
text as an assistant turn and send one `completed` frame. -/
def stream_ollama (cs : Conversations) (conversation_id : Json)
    (user_message task_id : String) (up : UpstreamResult) : BridgeResult :=
  let history := getHistory cs conversation_id
  let history1 := history ++ [{ role := "user", content := user_message }]
  let cs1 := setHistory cs conversation_id history1
  let prompt := buildPrompt history1
  match up with
  | .httpStatusError code =>
      { conversations := cs1,
        frames := [.error task_id ("Ollama returned HTTP " ++ toString code)
          conversation_id],
        prompt := prompt }
  | .connectFailure =>
      { conversations := cs1,
        frames := [.error task_id ("Cannot connect to Ollama at " ++ OLLAMA_HOST)
          conversation_id],
        prompt := prompt }
  | .ok lines fault =>
      let r := readLines task_id conversation_id lines
      match fault, r.sawDone with
      | some msg, false =>
          { conversations := cs1,
            frames := r.frames ++ [.error task_id msg conversation_id],
            prompt := prompt }
      | _, _ =>
          let history2 := history1 ++ [{ role := "assistant", content := r.text }]
          { conversations := setHistory cs1 conversation_id history2,
            frames := r.frames ++ [.completed task_id conversation_id],
            prompt := prompt }

/-- Python `str.strip()` with no argument: remove leading and trailing
whitespace (whitespace as `Char.isWhitespace` sees it). -/
def strip (s : String) : String :=
  String.mk
    (((s.data.dropWhile Char.isWhitespace).reverse.dropWhile
      Char.isWhitespace).reverse)

/-- Lines 265: `data.get("message", "").strip()` before the strip — an
absent field defaults to `""`; a non-string value has no `.strip` method,
so the expression raises `AttributeError`, modelled as `none`. -/
def getMessageStr (fields : List (String × Json)) : Option String :=
  match jLookup "message" fields with
  | none => some ""
  | some (.str s) => some s
  | some _ => none

/-- Line 266: `data.get("conversation_id") or str(uuid.uuid4())` — an
absent field gives `None`, and any falsy value (so also `""`) makes the
`or` take the freshly generated uuid. -/
def resolvedCid (fields : List (String × Json)) (freshCid : String) : Json :=
  match jLookup "conversation_id" fields with
  | some v => if v.truthy then v else .str freshCid
  | none => .str freshCid

/-- Outcome of one iteration of the `_handle_chat` read loop: `ok` carries
the frames sent and the new `conversations` state and the loop continues
with the next `receive_text`; `crash` is an uncaught exception — the `try`
at line 248 only catches `WebSocketDisconnect`, so anything else propagates
out of the loop and the connection is torn down. -/
inductive HandlerOutcome where
  | ok (frames : List Frame) (conversations : Conversations)
  | crash (exc : String)

/-- One iteration of `_handle_chat`, main.py lines 250–280, on one inbound
text frame. `raw = none` is a frame `json.loads` rejects (lines 252–263);
`raw = some data` is the decoded value. The fresh `uuid.uuid4()` values of
lines 257 and 266–267 enter as `freshTask` and `freshCid`.

Crash points, none of which sends a frame first: `data.get` on a decoded
value that is not an object (line 265, `AttributeError`); `.strip()` on a
non-string message value (line 265, `AttributeError`); an unhashable
(list/dict) conversation id used as a dict key (main.py line 99 inside
`stream_ollama`, `TypeError` — reached only when the message is non-empty,
since the emptiness check at line 269 runs first). -/
def handle_frame (cs : Conversations) (raw : Option Json)
    (freshTask freshCid : String) (up : UpstreamResult) : HandlerOutcome :=
  match raw with
  | none => .ok [.error freshTask "Invalid JSON" .null] cs
  | some (.obj fields) =>
      match getMessageStr fields with
      | none => .crash "AttributeError"
      | some s =>
          let message := strip s
          let cid := resolvedCid fields freshCid
          if message = "" then
            .ok [.error freshTask "Empty message" cid] cs
          else if cid.hashable then
            let r := stream_ollama cs cid message freshTask up
            .ok r.frames r.conversations
          else
            .crash "TypeError"
  | some _ => .crash "AttributeError"

/-- One occurrence of the read loop: the inbound frame (after `json.loads`),
the two fresh uuids of this iteration, and how the upstream call would go. -/
structure Step where
  raw : Option Json
  freshTask : String
  freshCid : String
  up : UpstreamResult

/-- A step that cannot hit any of the crash points of `handle_frame`: the
frame either fails to decode, or decodes to an object whose `message` value
(defaulting to `""`) is a string and which, when the trimmed message is
non-empty, resolves to a hashable conversation id. -/
def Step.wf (st : Step) : Bool :=
  match st.raw with
  | none => true
  | some (.obj fields) =>
      match getMessageStr fields with
      | none => false
      | some s => strip s == "" || (resolvedCid fields st.freshCid).hashable
  | some _ => false

/-- Result of running the read loop over a list of inbound occurrences:
`crashed = false` means every step was handled and the loop ended only
because the peer's frames ran out (transport disconnect, caught at line
282); `crashed = true` means an uncaught exception ended the loop early. -/
structure LoopResult where
  conversations : Conversations
  frames : List Frame
  crashed : Bool

/-- The `while True` read loop of `_handle_chat`, main.py lines 249–283,
over a finite list of inbound occurrences ending in peer disconnect. -/
def runLoop (cs : Conversations) : List Step → LoopResult
  | [] => { conversations := cs, frames := [], crashed := false }
  | st :: rest =>
      match handle_frame cs st.raw st.freshTask st.freshCid st.up with
      | .ok fs cs1 =>
          let r := runLoop cs1 rest
          { conversations := r.conversations, frames := fs ++ r.frames,
            crashed := r.crashed }
      | .crash _ => { conversations := cs, frames := [], crashed := true }

/-- Modelled from the spec (§4.2 step 2): the prompt is "every turn in
history as `<RoleLabel>: <content>` lines", RoleLabel `User` for user turns
and `Assistant` for assistant turns, "terminated by a trailing `Assistant:`
cue line", the lines joined by newlines. Stated separately from
`buildPrompt` (which is transcribed from main.py lines 105–113) so the two
renderings can be compared. -/
def promptSpec (history : List Turn) : String :=
  String.intercalate "\n"
    ((history.map fun t =>
      (if t.role = "user" then "User" else "Assistant") ++ ": " ++ t.content)
      ++ ["Assistant:"])

/-! ## Helper lemmas -/

theorem getHistory_setHistory_same (cs : Conversations) (cid : Json)
    (h : List Turn) : getHistory (setHistory cs cid h) cid = h := by
  simp [getHistory, setHistory]

theorem setHistory_other (cs : Conversations) (cid k : Json) (h : List Turn)
    (hk : k ≠ cid) : setHistory cs cid h k = cs k := by
  simp [setHistory, hk]

theorem Frame.content_not_completed {f : Frame} (h : f.isContent = true) :
    f.isCompleted = false := by
  cases f <;> simp_all [Frame.isContent, Frame.isCompleted]

theorem Frame.content_not_error {f : Frame} (h : f.isContent = true) :
    f.isError = false := by
  cases f <;> simp_all [Frame.isContent, Frame.isError]

theorem readLines_frames_content (t : String) (c : Json) (lines : List Line) :
    ∀ f ∈ (readLines t c lines).frames, f.isContent = true := by
  induction lines with
  | nil => simp [readLines]
  | cons l rest ih =>
    cases l with
    | blank => simpa [readLines] using ih
    | malformed => simpa [readLines] using ih
    | chunk c0 =>
      simp only [readLines]
      split
      · intro f hf
        split at hf
        · simp at hf
        · simp at hf
          subst hf
          rfl
      · intro f hf
        simp only [List.mem_append] at hf
        rcases hf with hf | hf
        · split at hf
          · simp at hf
          · simp at hf
            subst hf
            rfl
        · exact ih f hf

theorem readLines_frames_eq (t : String) (c : Json) (lines : List Line) :
    (readLines t c lines).frames
      = (takenChunks lines).filterMap (fun ch =>
          if ch.response = "" then none
          else some (Frame.content t ch.response c)) := by
  induction lines with
  | nil => simp [readLines, takenChunks]
  | cons l rest ih =>
    cases l with
    | blank => simpa [readLines, takenChunks] using ih
    | malformed => simpa [readLines, takenChunks] using ih
    | chunk c0 =>
      simp only [readLines, takenChunks]
      split
      · split <;> simp_all [List.filterMap]
      · split <;> simp_all [List.filterMap_cons]

theorem readLines_text_eq (t : String) (c : Json) (lines : List Line) :
    (readLines t c lines).text
      = concatAll ((takenChunks lines).map Chunk.response) := by
  induction lines with
  | nil => simp [readLines, takenChunks, concatAll]
  | cons l rest ih =>
    cases l with
    | blank => simpa [readLines, takenChunks] using ih
    | malformed => simpa [readLines, takenChunks] using ih
    | chunk c0 =>
      simp only [readLines, takenChunks]
      split
      · simp [concatAll]
      · simp [concatAll, ih]

theorem readLines_text_frames (t : String) (c : Json) (lines : List Line) :
    concatAll ((readLines t c lines).frames.filterMap frameText)
      = (readLines t c lines).text := by
  induction lines with
  | nil => simp [readLines, concatAll]
  | cons l rest ih =>
    cases l with
    | blank => simpa [readLines] using ih
    | malformed => simpa [readLines] using ih
    | chunk c0 =>
      simp only [readLines]
      split
      · split <;> simp_all [concatAll, frameText]
      · split <;> simp_all [concatAll, frameText, List.filterMap_cons]

theorem readLines_stop (t : String) (c : Json) (pre suf : List Line)
    (hd : (readLines t c pre).sawDone = true) :
    readLines t c (pre ++ suf) = readLines t c pre := by
  induction pre with
  | nil => simp [readLines] at hd
  | cons l rest ih =>
    cases l with
    | blank =>
      simp only [readLines] at hd ⊢
      exact ih hd
    | malformed =>
      simp only [readLines] at hd ⊢
      exact ih hd
    | chunk c0 =>
      simp only [readLines] at hd ⊢
      split at hd
      · split
        · rfl
        · simp_all
      · split
        · simp_all
        · simp only at hd
          simp only [List.append_eq]
          rw [ih hd]

theorem stream_ollama_status (cs : Conversations) (cid : Json) (msg task : String)
    (code : Nat) :
    stream_ollama cs cid msg task (.httpStatusError code)
      = { conversations := setHistory cs cid (getHistory cs cid ++ [⟨"user", msg⟩]),
          frames := [.error task ("Ollama returned HTTP " ++ toString code) cid],
          prompt := buildPrompt (getHistory cs cid ++ [⟨"user", msg⟩]) } := rfl

theorem stream_ollama_connect (cs : Conversations) (cid : Json) (msg task : String) :
    stream_ollama cs cid msg task .connectFailure
      = { conversations := setHistory cs cid (getHistory cs cid ++ [⟨"user", msg⟩]),
          frames := [.error task ("Cannot connect to Ollama at " ++ OLLAMA_HOST) cid],
          prompt := buildPrompt (getHistory cs cid ++ [⟨"user", msg⟩]) } := rfl

theorem stream_ollama_fault (cs : Conversations) (cid : Json) (msg task m : String)
    (lines : List Line) (hsd : (readLines task cid lines).sawDone = false) :
    stream_ollama cs cid msg task (.ok lines (some m))
      = { conversations := setHistory cs cid (getHistory cs cid ++ [⟨"user", msg⟩]),
          frames := (readLines task cid lines).frames ++ [.error task m cid],
          prompt := buildPrompt (getHistory cs cid ++ [⟨"user", msg⟩]) } := by
  simp only [stream_ollama, hsd]

theorem stream_ollama_complete (cs : Conversations) (cid : Json) (msg task : String)
    (lines : List Line) (fault : Option String)
    (hok : fault = none ∨ (readLines task cid lines).sawDone = true) :
    stream_ollama cs cid msg task (.ok lines fault)
      = { conversations := setHistory
            (setHistory cs cid (getHistory cs cid ++ [⟨"user", msg⟩])) cid
            ((getHistory cs cid ++ [⟨"user", msg⟩])
              ++ [⟨"assistant", (readLines task cid lines).text⟩]),
          frames := (readLines task cid lines).frames ++ [.completed task cid],
          prompt := buildPrompt (getHistory cs cid ++ [⟨"user", msg⟩]) } := by
  rcases hok with h | h
  · subst h
    simp only [stream_ollama]
  · rcases fault with _ | m
    · simp only [stream_ollama]
    · simp only [stream_ollama, h]

theorem jLookup_eraseField_self (k : String) (fs : List (String × Json)) :
    jLookup k (eraseField k fs) = none := by
  induction fs with
  | nil => rfl
  | cons p rest ih =>
    rcases p with ⟨k1, v⟩
    simp only [eraseField, List.filter_cons] at ih ⊢
    by_cases h : k1 = k
    · simp [h, ih]
    · simp [h, jLookup, ih]

theorem jLookup_eraseField_ne (k k2 : String) (h : k ≠ k2)
    (fs : List (String × Json)) :
    jLookup k (eraseField k2 fs) = jLookup k fs := by
  induction fs with
  | nil => rfl
  | cons p rest ih =>
    rcases p with ⟨k1, v⟩
    simp only [eraseField, List.filter_cons] at ih ⊢
    by_cases h1 : k1 = k2
    · have hk1 : ¬(k1 = k) := by
        rw [h1]
        exact fun hh => h hh.symm
      simp [h1, jLookup, hk1, ih, Ne.symm h]
    · by_cases h2 : k1 = k <;> simp [jLookup, h1, h2, ih, h]

theorem stream_ollama_preserves_other (cs : Conversations) (cid : Json)
    (msg task : String) (up : UpstreamResult) (k : Json) (hk : k ≠ cid) :
    (stream_ollama cs cid msg task up).conversations k = cs k := by
  cases up with
  | httpStatusError code =>
    rw [stream_ollama_status]
    exact setHistory_other _ _ _ _ hk
  | connectFailure =>
    rw [stream_ollama_connect]
    exact setHistory_other _ _ _ _ hk
  | ok lines fault =>
    rcases fault with _ | m
    · rw [stream_ollama_complete cs cid msg task lines none (Or.inl rfl)]
      simp [setHistory, hk]
    · cases hsd : (readLines task cid lines).sawDone
      · rw [stream_ollama_fault cs cid msg task m lines hsd]
        exact setHistory_other _ _ _ _ hk
      · rw [stream_ollama_complete cs cid msg task lines (some m) (Or.inr hsd)]
        simp [setHistory, hk]



theorem handle_frame_wf (cs : Conversations) (st : Step) (h : st.wf = true) :
    ∃ fs cs1,
      handle_frame cs st.raw st.freshTask st.freshCid st.up = .ok fs cs1 := by
  rcases st with ⟨raw, ft, fc, up⟩
  rcases raw with _ | data
  · exact ⟨_, _, rfl⟩
  · cases data with
    | obj fields =>
      simp only [Step.wf] at h
      rcases hm : getMessageStr fields with _ | s
      · rw [hm] at h
        simp at h
      · rw [hm] at h
        simp only [Bool.or_eq_true, beq_iff_eq] at h
        simp only [handle_frame, hm]
        by_cases hms : strip s = ""
        · rw [if_pos hms]
          exact ⟨_, _, rfl⟩
        · rw [if_neg hms]
          rcases h with h | h
        -- strip s = "" contradicts hms
          · exact absurd h hms
          · rw [if_pos h]
            exact ⟨_, _, rfl⟩
    | str s => simp [Step.wf] at h
    | num n => simp [Step.wf] at h
    | bool b => simp [Step.wf] at h
    | null => simp [Step.wf] at h
    | arr xs => simp [Step.wf] at h

theorem runLoop_wf (steps : List Step) (cs : Conversations)
    (h : ∀ st ∈ steps, st.wf = true) :
    (runLoop cs steps).crashed = false := by
  induction steps generalizing cs with
  | nil => rfl
  | cons st rest ih =>
    obtain ⟨fs, cs1, heq⟩ := handle_frame_wf cs st (h st (by simp))
    simp only [runLoop, heq]
    exact ih cs1 (fun s hs => h s (by simp [hs]))

/-! ## Claim theorems -/

/-- Claim C1 (confirmed): every invocation of the bridge `stream_ollama`
emits zero or more `content` events followed by exactly one terminal event
(`completed` or `error`); never zero terminal events, never two, and no
`content` event after the terminal one. -/
theorem bridge_exactly_one_terminal (cs : Conversations) (cid : Json)
    (msg task : String) (up : UpstreamResult) :
    ∃ pre last, (stream_ollama cs cid msg task up).frames = pre ++ [last]
      ∧ (∀ f ∈ pre, f.isContent = true)
      ∧ (last.isCompleted = true ∨ last.isError = true) := by
  cases up with
  | httpStatusError code =>
    exact ⟨[], .error task ("Ollama returned HTTP " ++ toString code) cid,
      by simp [stream_ollama_status], by simp, Or.inr rfl⟩
  | connectFailure =>
    exact ⟨[], .error task ("Cannot connect to Ollama at " ++ OLLAMA_HOST) cid,
      by simp [stream_ollama_connect], by simp, Or.inr rfl⟩
  | ok lines fault =>
    rcases fault with _ | m
    · exact ⟨(readLines task cid lines).frames, .completed task cid,
        by rw [stream_ollama_complete cs cid msg task lines none (Or.inl rfl)],
        readLines_frames_content task cid lines, Or.inl rfl⟩
    · cases hsd : (readLines task cid lines).sawDone
      · exact ⟨(readLines task cid lines).frames, .error task m cid,
          by rw [stream_ollama_fault cs cid msg task m lines hsd],
          readLines_frames_content task cid lines, Or.inr rfl⟩
      · exact ⟨(readLines task cid lines).frames, .completed task cid,
          by rw [stream_ollama_complete cs cid msg task lines (some m) (Or.inr hsd)],
          readLines_frames_content task cid lines, Or.inl rfl⟩

/-- Claim C2 (counterexample): a stream made of one line that is not valid
JSON, ending with no chunk carrying the completion flag, does not produce an
`error` event — the bridge emits a single `completed` event and appends an
(empty) assistant turn, against the claim's "exactly one `error` event and
no assistant turn". -/
theorem malformed_stream_treated_as_success :
    (stream_ollama noConversations (Json.str "c") "hi" "t"
        (.ok [Line.malformed] none)).frames
      = [Frame.completed "t" (Json.str "c")]
    ∧ (stream_ollama noConversations (Json.str "c") "hi" "t"
        (.ok [Line.malformed] none)).frames.any Frame.isError = false
    ∧ getHistory (stream_ollama noConversations (Json.str "c") "hi" "t"
        (.ok [Line.malformed] none)).conversations (Json.str "c")
      = [⟨"user", "hi"⟩, ⟨"assistant", ""⟩] := by
  refine ⟨by decide, by decide, by decide⟩

/-- Claim C2 (as amended): an undecodable line is silently skipped, and a
stream that ends before any completion flag is treated as a clean
completion (assistant turn appended, one `completed` event). Only when
reading the stream raises a transport-level exception with no completion
flag seen does the bridge emit exactly one `error` event — after the
`content` events — and append no assistant turn. -/
theorem upstream_fault_and_skip_behaviour (cs : Conversations) (cid : Json)
    (msg task m : String) (lines : List Line)
    (hsd : (readLines task cid lines).sawDone = false) :
    readLines task cid (Line.malformed :: lines) = readLines task cid lines
    ∧ (stream_ollama cs cid msg task (.ok lines (some m))).frames
        = (readLines task cid lines).frames ++ [.error task m cid]
    ∧ (∀ f ∈ (readLines task cid lines).frames, f.isContent = true)
    ∧ getHistory (stream_ollama cs cid msg task
        (.ok lines (some m))).conversations cid
        = getHistory cs cid ++ [⟨"user", msg⟩]
    ∧ (stream_ollama cs cid msg task (.ok lines none)).frames
        = (readLines task cid lines).frames ++ [.completed task cid]
    ∧ getHistory (stream_ollama cs cid msg task (.ok lines none)).conversations cid
        = getHistory cs cid
            ++ [⟨"user", msg⟩, ⟨"assistant", (readLines task cid lines).text⟩] := by
  refine ⟨rfl, ?_, readLines_frames_content task cid lines, ?_, ?_, ?_⟩
  · rw [stream_ollama_fault cs cid msg task m lines hsd]
  · rw [stream_ollama_fault cs cid msg task m lines hsd]
    simp only [getHistory_setHistory_same]
  · rw [stream_ollama_complete cs cid msg task lines none (Or.inl rfl)]
  · rw [stream_ollama_complete cs cid msg task lines none (Or.inl rfl)]
    simp only [getHistory_setHistory_same]
    simp

/-- Witness for the amended Claim C2 at a concrete input. -/
theorem upstream_fault_and_skip_behaviour_witness :
    (stream_ollama noConversations (Json.str "c") "hi" "t"
        (.ok [Line.chunk ⟨"He", false⟩] (some "boom"))).frames
      = (readLines "t" (Json.str "c") [Line.chunk ⟨"He", false⟩]).frames
        ++ [.error "t" "boom" (Json.str "c")] :=
  (upstream_fault_and_skip_behaviour noConversations (Json.str "c") "hi" "t"
    "boom" [Line.chunk ⟨"He", false⟩] (by decide)).2.1

/-- Claim C3 (confirmed): the reading loop emits exactly one `content`
event per chunk with a non-empty fragment, in arrival order with no
buffering or coalescing (first conjunct); the accumulator equals the
concatenation of the processed fragments, hence of all emitted fragments
(second and third conjuncts, for every prefix of the stream since `lines`
is arbitrary); and reading stops at the first chunk whose completion flag
is set — lines after it change nothing (last conjunct). -/
theorem content_relay_in_order (t : String) (c : Json) (lines pre suf : List Line)
    (hd : (readLines t c pre).sawDone = true) :
    (readLines t c lines).frames
      = (takenChunks lines).filterMap (fun ch =>
          if ch.response = "" then none
          else some (Frame.content t ch.response c))
    ∧ (readLines t c lines).text
        = concatAll ((takenChunks lines).map Chunk.response)
    ∧ concatAll ((readLines t c lines).frames.filterMap frameText)
        = (readLines t c lines).text
    ∧ readLines t c (pre ++ suf) = readLines t c pre :=
  ⟨readLines_frames_eq t c lines, readLines_text_eq t c lines,
   readLines_text_frames t c lines, readLines_stop t c pre suf hd⟩

/-- Witness for Claim C3 at a concrete input. -/
theorem content_relay_in_order_witness :
    readLines "t" (Json.str "c")
        ([Line.chunk ⟨"Hi", true⟩] ++ [Line.chunk ⟨"X", false⟩])
      = readLines "t" (Json.str "c") [Line.chunk ⟨"Hi", true⟩] :=
  (content_relay_in_order "t" (Json.str "c")
    [Line.chunk ⟨"He", false⟩, Line.chunk ⟨"y", true⟩]
    [Line.chunk ⟨"Hi", true⟩] [Line.chunk ⟨"X", false⟩] (by decide)).2.2.2

/-- Claim C4 (confirmed): whenever the bridge emits a `completed` event,
the conversation's history grows by exactly two turns — the user turn with
the inbound message followed by an assistant turn — and the assistant
turn's text is the concatenation of the emitted `content` fragments (the
assistant turn is in the final state, so appended before `completed` was
sent, as lines 159–170 do). -/
theorem completed_appends_user_then_assistant (cs : Conversations) (cid : Json)
    (msg task : String) (up : UpstreamResult)
    (h : (stream_ollama cs cid msg task up).frames.any Frame.isCompleted = true) :
    ∃ text,
      getHistory (stream_ollama cs cid msg task up).conversations cid
        = getHistory cs cid ++ [⟨"user", msg⟩, ⟨"assistant", text⟩]
      ∧ (getHistory (stream_ollama cs cid msg task up).conversations cid).length
        = (getHistory cs cid).length + 2
      ∧ concatAll ((stream_ollama cs cid msg task up).frames.filterMap frameText)
        = text := by
  cases up with
  | httpStatusError code =>
    rw [stream_ollama_status] at h
    simp [Frame.isCompleted] at h
  | connectFailure =>
    rw [stream_ollama_connect] at h
    simp [Frame.isCompleted] at h
  | ok lines fault =>
    have hcomplete : fault = none ∨ (readLines task cid lines).sawDone = true := by
      rcases fault with _ | m
      · exact Or.inl rfl
      · cases hsd : (readLines task cid lines).sawDone
        · rw [stream_ollama_fault cs cid msg task m lines hsd] at h
          simp only [List.any_eq_true] at h
          obtain ⟨f, hf, hft⟩ := h
          simp only [List.mem_append, List.mem_singleton] at hf
          rcases hf with hf | hf
          · rw [Frame.content_not_completed
              (readLines_frames_content task cid lines f hf)] at hft
            exact absurd hft (by simp)
          · subst hf
            exact absurd hft (by simp [Frame.isCompleted])
        · exact Or.inr rfl
    rw [stream_ollama_complete cs cid msg task lines fault hcomplete]
    refine ⟨(readLines task cid lines).text, ?_, ?_, ?_⟩
    · simp only [getHistory_setHistory_same]
      simp
    · simp only [getHistory_setHistory_same]
      simp
    · simp only [List.filterMap_append]
      simp only [List.filterMap_cons, frameText, List.filterMap_nil, List.append_nil]
      exact readLines_text_frames task cid lines

/-- Witness for Claim C4 at a concrete input. -/
theorem completed_appends_user_then_assistant_witness :
    ∃ text,
      getHistory (stream_ollama noConversations (Json.str "c") "hi" "t"
          (.ok [Line.chunk ⟨"He", false⟩, Line.chunk ⟨"y", true⟩] none)).conversations
          (Json.str "c")
        = getHistory noConversations (Json.str "c")
            ++ [⟨"user", "hi"⟩, ⟨"assistant", text⟩]
      ∧ (getHistory (stream_ollama noConversations (Json.str "c") "hi" "t"
          (.ok [Line.chunk ⟨"He", false⟩, Line.chunk ⟨"y", true⟩] none)).conversations
          (Json.str "c")).length
        = (getHistory noConversations (Json.str "c")).length + 2
      ∧ concatAll ((stream_ollama noConversations (Json.str "c") "hi" "t"
          (.ok [Line.chunk ⟨"He", false⟩, Line.chunk ⟨"y", true⟩] none)).frames.filterMap
            frameText)
        = text :=
  completed_appends_user_then_assistant noConversations (Json.str "c") "hi" "t"
    (.ok [Line.chunk ⟨"He", false⟩, Line.chunk ⟨"y", true⟩] none) (by decide)

/-- Claim C5 (confirmed): whenever the bridge emits an `error` event, the
conversation's history grows by exactly one turn — the user turn, which
remains in history with no rollback — and no assistant turn is appended. -/
theorem errored_appends_user_only (cs : Conversations) (cid : Json)
    (msg task : String) (up : UpstreamResult)
    (h : (stream_ollama cs cid msg task up).frames.any Frame.isError = true) :
    getHistory (stream_ollama cs cid msg task up).conversations cid
      = getHistory cs cid ++ [⟨"user", msg⟩]
    ∧ (getHistory (stream_ollama cs cid msg task up).conversations cid).length
      = (getHistory cs cid).length + 1 := by
  cases up with
  | httpStatusError code =>
    rw [stream_ollama_status]
    constructor
    · simp only [getHistory_setHistory_same]
    · simp [getHistory_setHistory_same]
  | connectFailure =>
    rw [stream_ollama_connect]
    constructor
    · simp only [getHistory_setHistory_same]
    · simp [getHistory_setHistory_same]
  | ok lines fault =>
    have hfault : ∃ m, fault = some m
        ∧ (readLines task cid lines).sawDone = false := by
      rcases fault with _ | m
      · rw [stream_ollama_complete cs cid msg task lines none (Or.inl rfl)] at h
        simp only [List.any_eq_true] at h
        obtain ⟨f, hf, hft⟩ := h
        simp only [List.mem_append, List.mem_singleton] at hf
        rcases hf with hf | hf
        · rw [Frame.content_not_error
            (readLines_frames_content task cid lines f hf)] at hft
          exact absurd hft (by simp)
        · subst hf
          exact absurd hft (by simp [Frame.isError])
      · cases hsd : (readLines task cid lines).sawDone
        · exact ⟨m, rfl, rfl⟩
        · rw [stream_ollama_complete cs cid msg task lines (some m) (Or.inr hsd)] at h
          simp only [List.any_eq_true] at h
          obtain ⟨f, hf, hft⟩ := h
          simp only [List.mem_append, List.mem_singleton] at hf
          rcases hf with hf | hf
          · rw [Frame.content_not_error
              (readLines_frames_content task cid lines f hf)] at hft
            exact absurd hft (by simp)
          · subst hf
            exact absurd hft (by simp [Frame.isError])
    obtain ⟨m, hm, hsd⟩ := hfault
    subst hm
    rw [stream_ollama_fault cs cid msg task m lines hsd]
    constructor
    · simp only [getHistory_setHistory_same]
    · simp [getHistory_setHistory_same]

/-- Witness for Claim C5 at a concrete input. -/
theorem errored_appends_user_only_witness :
    getHistory (stream_ollama noConversations (Json.str "c") "hi" "t"
        (.httpStatusError 500)).conversations (Json.str "c")
      = getHistory noConversations (Json.str "c") ++ [⟨"user", "hi"⟩]
    ∧ (getHistory (stream_ollama noConversations (Json.str "c") "hi" "t"
        (.httpStatusError 500)).conversations (Json.str "c")).length
      = (getHistory noConversations (Json.str "c")).length + 1 :=
  errored_appends_user_only noConversations (Json.str "c") "hi" "t"
    (.httpStatusError 500) (by decide)

/-- Claim C6 (confirmed): in every invocation, the prompt sent upstream
renders the full history including the just-appended user turn, one
`<RoleLabel>: <content>` line per turn (`User` for user turns, `Assistant`
for assistant turns), joined by newlines and terminated by the trailing
`Assistant:` cue line — `promptSpec` is this rendering written from the
spec's words. -/
theorem prompt_is_full_transcript (cs : Conversations) (cid : Json)
    (msg task : String) (up : UpstreamResult) :
    (stream_ollama cs cid msg task up).prompt
      = promptSpec (getHistory cs cid ++ [⟨"user", msg⟩]) := by
  have hspec : ∀ h : List Turn, promptSpec h = buildPrompt h := fun _ => rfl
  rw [hspec]
  cases up with
  | httpStatusError code => rw [stream_ollama_status]
  | connectFailure => rw [stream_ollama_connect]
  | ok lines fault =>
    rcases fault with _ | m
    · rw [stream_ollama_complete cs cid msg task lines none (Or.inl rfl)]
    · cases hsd : (readLines task cid lines).sawDone
      · rw [stream_ollama_fault cs cid msg task m lines hsd]
      · rw [stream_ollama_complete cs cid msg task lines (some m) (Or.inr hsd)]

/-- Claim C7 (confirmed): an inbound frame that fails JSON decoding yields
exactly one `error` event with a fresh task id and a null conversation id;
a decoded object frame whose trimmed message is empty yields exactly one
`error` event carrying the resolved-or-fresh conversation id. Neither
mutates any conversation's history (the state is returned unchanged) and
both return `HandlerOutcome.ok`, so the read loop continues. -/
theorem invalid_inbound_one_error_no_mutation (cs : Conversations)
    (ft fc : String) (up : UpstreamResult) (fields : List (String × Json))
    (s : String) (hm : getMessageStr fields = some s) (he : strip s = "") :
    handle_frame cs none ft fc up
      = .ok [.error ft "Invalid JSON" .null] cs
    ∧ handle_frame cs (some (.obj fields)) ft fc up
      = .ok [.error ft "Empty message" (resolvedCid fields fc)] cs := by
  constructor
  · rfl
  · simp [handle_frame, hm, he]

/-- Witness for Claim C7 at a concrete input. -/
theorem invalid_inbound_one_error_no_mutation_witness :
    handle_frame noConversations none "t" "f" (.ok [] none)
      = .ok [.error "t" "Invalid JSON" .null] noConversations
    ∧ handle_frame noConversations
        (some (.obj [("message", Json.str " ")])) "t" "f" (.ok [] none)
      = .ok [.error "t" "Empty message"
          (resolvedCid [("message", Json.str " ")] "f")] noConversations :=
  invalid_inbound_one_error_no_mutation noConversations "t" "f" (.ok [] none)
    [("message", Json.str " ")] " " rfl rfl

/-- Claim C8 (counterexample): a frame that decodes to valid JSON that is
not an object — here the array `[1,2,3]` — ends the read loop without a
peer disconnect: `data.get` raises `AttributeError`, which `_handle_chat`
does not catch. -/
theorem loop_ends_on_non_object_frame :
    (runLoop noConversations
      [⟨some (Json.arr [Json.num 1, Json.num 2, Json.num 3]), "t", "c",
        .ok [] none⟩]).crashed = true := rfl

/-- Claim C8 (as amended): the read loop recovers and continues for every
frame that fails JSON decoding and for every object frame whose `message`
value (an absent field counting as `""`) is a string, provided the trimmed
message is empty or the resolved conversation id is hashable; but a frame
decoding to a non-object JSON value, or to an object whose `message` value
is not a string, raises an uncaught exception that ends the loop. -/
theorem loop_survives_wellformed_frames (cs : Conversations) (steps : List Step)
    (h : ∀ st ∈ steps, st.wf = true)
    (bad1 bad2 : Step)
    (hb1 : bad1.raw = some (Json.arr [Json.num 1, Json.num 2, Json.num 3]))
    (hb2 : ∃ fields v, bad2.raw = some (Json.obj fields)
      ∧ jLookup "message" fields = some v ∧ (∀ s, v ≠ Json.str s)) :
    (runLoop cs steps).crashed = false
    ∧ (∀ cs2, ∃ e, handle_frame cs2 bad1.raw bad1.freshTask bad1.freshCid bad1.up
        = .crash e)
    ∧ (∀ cs2, ∃ e, handle_frame cs2 bad2.raw bad2.freshTask bad2.freshCid bad2.up
        = .crash e) := by
  refine ⟨runLoop_wf steps cs h, ?_, ?_⟩
  · intro cs2
    rw [hb1]
    exact ⟨"AttributeError", rfl⟩
  · intro cs2
    obtain ⟨fields, v, hraw, hlk, hv⟩ := hb2
    rw [hraw]
    have hgm : getMessageStr fields = none := by
      cases v with
      | str s => exact absurd rfl (hv s)
      | num n => simp [getMessageStr, hlk]
      | bool b => simp [getMessageStr, hlk]
      | null => simp [getMessageStr, hlk]
      | arr xs => simp [getMessageStr, hlk]
      | obj fs => simp [getMessageStr, hlk]
    simp only [handle_frame, hgm]
    exact ⟨"AttributeError", rfl⟩

/-- Witness for the amended Claim C8 at a concrete input. -/
theorem loop_survives_wellformed_frames_witness :
    (runLoop noConversations
      [⟨none, "t1", "c1", .ok [] none⟩,
       ⟨some (Json.obj [("message", Json.str "hi")]), "t2", "c2",
        .ok [] none⟩]).crashed = false :=
  (loop_survives_wellformed_frames noConversations
    [⟨none, "t1", "c1", .ok [] none⟩,
     ⟨some (Json.obj [("message", Json.str "hi")]), "t2", "c2", .ok [] none⟩]
    (by decide)
    ⟨some (Json.arr [Json.num 1, Json.num 2, Json.num 3]), "t3", "c3", .ok [] none⟩
    ⟨some (Json.obj [("message", Json.num 5)]), "t4", "c4", .ok [] none⟩
    rfl
    ⟨[("message", Json.num 5)], Json.num 5, rfl, rfl,
      fun s h => Json.noConfusion h⟩).1

/-- Claim C10 (confirmed): a present but falsy `conversation_id` (such as
`""`) resolves to the freshly generated id, the handler behaves exactly as
if the field were absent (erasing the field does not change the outcome),
and — since the fresh uuid is non-empty — the conversation keyed by the
empty string is never read or written. -/
theorem falsy_cid_treated_as_absent (cs : Conversations)
    (fields : List (String × Json)) (ft fc : String) (up : UpstreamResult)
    (v : Json) (hv : jLookup "conversation_id" fields = some v)
    (hf : v.truthy = false) :
    resolvedCid fields fc = .str fc
    ∧ handle_frame cs (some (.obj fields)) ft fc up
        = handle_frame cs (some (.obj (eraseField "conversation_id" fields))) ft fc up
    ∧ (fc ≠ "" → ∀ fs cs1,
        handle_frame cs (some (.obj fields)) ft fc up = .ok fs cs1 →
        cs1 (Json.str "") = cs (Json.str "")) := by
  have hmsg : getMessageStr (eraseField "conversation_id" fields)
      = getMessageStr fields := by
    simp only [getMessageStr,
      jLookup_eraseField_ne "message" "conversation_id" (by decide) fields]
  have hcid : resolvedCid fields fc = .str fc := by
    simp [resolvedCid, hv, hf]
  have hcid2 : resolvedCid (eraseField "conversation_id" fields) fc = .str fc := by
    simp [resolvedCid, jLookup_eraseField_self]
  refine ⟨hcid, ?_, ?_⟩
  · simp only [handle_frame, hmsg, hcid, hcid2]
  · intro hne fs cs1 hok
    simp only [handle_frame, hcid] at hok
    rcases hgm : getMessageStr fields with _ | s
    · simp only [hgm] at hok
      cases hok
    · simp only [hgm] at hok
      by_cases hms : strip s = ""
      · rw [if_pos hms] at hok
        cases hok
        rfl
      · rw [if_neg hms] at hok
        have hh : (Json.str fc).hashable = true := rfl
        rw [if_pos hh] at hok
        cases hok
        rw [stream_ollama_preserves_other cs (Json.str fc) (strip s) ft up
          (Json.str "")
          (by simp only [ne_eq, Json.str.injEq]
              exact fun hh2 => hne hh2.symm)]

/-- Witness for Claim C10 at a concrete input. -/
theorem falsy_cid_treated_as_absent_witness :
    resolvedCid [("message", Json.str "hi"), ("conversation_id", Json.str "")] "f"
      = Json.str "f" :=
  (falsy_cid_treated_as_absent noConversations
    [("message", Json.str "hi"), ("conversation_id", Json.str "")] "t" "f"
    (.ok [] none) (Json.str "") rfl (by decide)).1

end Monty
